import Mathlib

/-!
Verification of the Neo4j graph-construction pipeline in
`ragtest/build_neo4j.py` (class `TCMNeo4jBuilder` and its `main` driver).

Python strings are modelled as `List Char`.  Pandas cell values are modelled
by small inductive types (`RawType` for the entity `type` column, `Cell` for
general row cells).  The builder's mutable `type_to_label` dict is modelled
as an insertion-ordered association list (`Mapping`), which matches Python
dict semantics: assignment to an existing key keeps its position, a new key
is appended at the end.
-/

namespace BuildNeo4j

/-- Python `str.strip()` whitespace set, restricted to the ASCII whitespace
characters (space, tab, newline, carriage return, vertical tab, form feed).
The repository's data never exercises non-ASCII whitespace. -/
def isPyWs (c : Char) : Bool :=
  c = ' ' || c = '\t' || c = '\n' || c = '\r' || c = Char.ofNat 11 || c = Char.ofNat 12

/-- The double-quote character. -/
def quoteChar : Char := Char.ofNat 34

/-- Strip characters satisfying `p` from both ends of a list, as Python's
`str.strip` does: all leading and all trailing such characters are removed. -/
def stripChars (p : Char → Bool) (l : List Char) : List Char :=
  List.rdropWhile p (List.dropWhile p l)

/-- Python `s.strip()` on our character-list model. -/
def stripWs (l : List Char) : List Char := stripChars isPyWs l

/-- Python `s.strip('"')` on our character-list model: removes every leading
and trailing double-quote character. -/
def stripQuote (l : List Char) : List Char := stripChars (fun c => c = quoteChar) l

/-- The cleaning applied to a raw type string throughout `build_neo4j.py`:
`str(x).strip().strip('"')` (whitespace strip, then quote strip; note the
source applies no further whitespace strip after the quote strip). -/
def cleanType (l : List Char) : List Char := stripQuote (stripWs l)

/-- A value of the pandas `type` column as seen by the builder: either a
null-equivalent (`pd.isna` is true: NaN / None / absent) or a value whose
`str(...)` form is the stored character list. -/
inductive RawType where
  | na : RawType
  | val : List Char → RawType
deriving DecidableEq

/-- The `pd.isna` test on a `type` cell. -/
def RawType.isNa : RawType → Bool
  | .na => true
  | .val _ => false

/-- The `str(...)` form of a `type` cell (never consulted on the `na` branch
by the source, which always tests `pd.isna` first). -/
def RawType.strOf : RawType → List Char
  | .na => ('n' :: 'a' :: 'n' :: [])
  | .val s => s

/-- The reserved label assigned to the empty type key and used as the
sanitizer's fallback: the string `"Unknown"`. -/
def unknownLabel : List Char := "Unknown".data

/-- The generic default label `"Entity"` returned by `get_entity_label` for a
type key absent from the mapping. -/
def entityLabel : List Char := "Entity".data

/-- Character class removed by `_generate_neo4j_label`'s
`re.sub(r'[（）()\[\]{}，。、/\\<>|*?:"\'`~!@#$%^&+=\s]', '', ...)`:
the listed punctuation/bracket/quote characters together with whitespace. -/
def removedChar (c : Char) : Bool :=
  c = '（' || c = '）' || c = '(' || c = ')' || c = '[' || c = ']' ||
  c = Char.ofNat 123 || c = Char.ofNat 125 || c = '，' || c = '。' || c = '、' ||
  c = '/' || c = Char.ofNat 92 || c = '<' || c = '>' || c = '|' || c = '*' ||
  c = '?' || c = ':' || c = quoteChar || c = Char.ofNat 39 || c = Char.ofNat 96 ||
  c = '~' || c = '!' || c = '@' || c = '#' || c = '$' || c = '%' || c = '^' ||
  c = '&' || c = '+' || c = '=' || isPyWs c

/-- `TCMNeo4jBuilder._generate_neo4j_label`: remove the characters of
`removedChar` from the cleaned type; if the result is non-empty use it as the
label, otherwise fall back to `"Unknown"`. -/
def generateNeo4jLabel (chinese_type : List Char) : List Char :=
  let clean_name := chinese_type.filter (fun c => !removedChar c)
  if clean_name ≠ [] then clean_name else unknownLabel

/-- The builder's `type_to_label` dict: an insertion-ordered association list
from cleaned type keys to labels. -/
abbrev Mapping := List (List Char × List Char)

/-- Python dict assignment `m[k] = v`: overwrite in place if `k` is present,
otherwise append `(k, v)` at the end. -/
def mapInsert (m : Mapping) (k v : List Char) : Mapping :=
  if k ∈ m.map Prod.fst then
    m.map (fun p => if p.1 = k then (k, v) else p)
  else m ++ [(k, v)]

/-- Python dict lookup `m.get(k)`. -/
def mapLookup (m : Mapping) (key : List Char) : Option (List Char) :=
  match m with
  | [] => none
  | (k, v) :: rest => if k = key then some v else mapLookup rest key

/-- `self.type_to_label.clear()`. -/
def clearMapping (_ : Mapping) : Mapping := []

/-- One iteration of the loop body of `generate_type_mappings`: on a
null-equivalent or whitespace-blank type, map the empty key to `"Unknown"`;
otherwise clean the type and, when the cleaned key is non-empty, map it to
its sanitized label.  A type that cleans to the empty string (for example
`'""'`) is skipped entirely. -/
def typeMappingStep (m : Mapping) (entity_type : RawType) : Mapping :=
  if entity_type.isNa = true ∨ stripWs entity_type.strOf = [] then
    mapInsert m [] unknownLabel
  else
    let clean_type := cleanType entity_type.strOf
    if clean_type ≠ [] then
      mapInsert m clean_type (generateNeo4jLabel clean_type)
    else m

/-- `TCMNeo4jBuilder.generate_type_mappings`: clears the previously stored
`type_to_label` mapping (`prior`), then folds the loop body over the observed
entity types in order. -/
def generate_type_mappings (prior : Mapping) (entity_types : List RawType) : Mapping :=
  (entity_types).foldl typeMappingStep (clearMapping prior)

/-- `TCMNeo4jBuilder.get_entity_label`, whose argument in the source is
always already a string: empty/blank strings give `"Unknown"`, otherwise the
cleaned string is looked up in the mapping with default `"Entity"`. -/
def get_entity_label (m : Mapping) (entity_type : List Char) : List Char :=
  if entity_type = [] ∨ stripWs entity_type = [] then unknownLabel
  else (mapLookup m (cleanType entity_type)).getD entityLabel

/-- Remove one leading and one trailing quote character, if present. -/
def stripOneQuoteLayer (l : List Char) : List Char :=
  let l₁ := if l.head? = some quoteChar then l.drop 1 else l
  if l₁.getLast? = some quoteChar then l₁.dropLast else l₁

/-- Modelled from the spec (§4.1, Type Normalizer), for comparison with the
source's `cleanType`: strip whitespace, strip one layer of surrounding quote
characters, then strip whitespace again. -/
def specNormalize (l : List Char) : List Char :=
  stripWs (stripOneQuoteLayer (stripWs l))

/-! ### Schema creation (`create_constraints_and_indexes`) -/

/-- One schema-definition statement issued by `create_constraints_and_indexes`:
a per-label uniqueness constraint on `id`, per-label indexes on `name` and
`type`, and the two relationship indexes. -/
inductive SchemaStmt where
  | uniqueId (label : List Char)
  | nameIndex (label : List Char)
  | typeIndex (label : List Char)
  | relWeightIndex
  | relRankIndex
deriving DecidableEq

/-- The label set of `create_constraints_and_indexes`:
`set(self.type_to_label.values())` with `"Entity"` added, modelled as a
duplicate-free list (Python set iteration order is unspecified; no claim
depends on the order). -/
def schemaLabels (m : Mapping) : List (List Char) :=
  let vs := (m.map Prod.snd).dedup
  if entityLabel ∈ vs then vs else vs ++ [entityLabel]

/-- The statement list built by `create_constraints_and_indexes`: three
statements per entity label, then the two relationship indexes. -/
def create_constraints_and_indexes (m : Mapping) : List SchemaStmt :=
  (schemaLabels m).flatMap
      (fun l => [SchemaStmt.uniqueId l, SchemaStmt.nameIndex l, SchemaStmt.typeIndex l])
    ++ [SchemaStmt.relWeightIndex, SchemaStmt.relRankIndex]

/-- The session loop of `create_constraints_and_indexes`: every statement is
run inside its own try/except, so each is attempted exactly once, in order,
whatever the outcomes of the previous ones.  `fails` models which statements
raise on the store side; the boolean paired with each statement records
whether it succeeded. -/
def runSchemaStmts (fails : SchemaStmt → Bool) : List SchemaStmt → List (SchemaStmt × Bool)
  | [] => []
  | s :: rest => (s, !fails s) :: runSchemaStmts fails rest

/-! ### The `main()` orchestration trace -/

/-- The phase-level events of a full `main()` run. -/
inductive Event where
  | schema (labels : List (List Char))
  | mapping
  | entityInsert (label : List Char)
  | relInsert
  | stats
deriving DecidableEq

/-- pandas `Series.unique()`: first-occurrence-ordered distinct values (all
null-equivalent values collapse to the single `na`). -/
def pdUnique (l : List RawType) : List RawType :=
  l.foldl (fun acc t => if t ∈ acc then acc else acc ++ [t]) []

/-- The label computed for one entity row by `create_entities` (source lines
248-249): clean the raw type (empty for null-equivalents), then resolve via
`get_entity_label`. -/
def rowEntityLabel (m : Mapping) (t : RawType) : List Char :=
  get_entity_label m (if t.isNa = true then [] else cleanType t.strOf)

/-- The orchestration order of `main()` restricted to the five pipeline
phases: `create_constraints_and_indexes` runs on the fresh builder's empty
`type_to_label` mapping BEFORE `load_entities` builds the mapping
(`generate_type_mappings` over the column's unique values); then entities
are inserted row by row, then relationships, then statistics. -/
def mainTrace (rawTypes : List RawType) : List Event :=
  let m₀ : Mapping := []
  let m := generate_type_mappings m₀ (pdUnique rawTypes)
  Event.schema (schemaLabels m₀) :: Event.mapping ::
    (rawTypes.map (fun t => Event.entityInsert (rowEntityLabel m t))
      ++ [Event.relInsert, Event.stats])

/-- Position of each phase in the order `main()` actually executes them. -/
def phaseIndex : Event → Nat
  | .schema _ => 0
  | .mapping => 1
  | .entityInsert _ => 2
  | .relInsert => 3
  | .stats => 4

/-! ### Row cells and Python numeric coercion -/

/-- A pandas row cell as the loaders see it: missing column (`row.get`
returns `None`), NaN, an integer, a float (modelled as a rational), or a
string. -/
inductive Cell where
  | absent
  | nan
  | intv (n : Int)
  | floatv (q : Rat)
  | strv (s : List Char)
deriving DecidableEq

/-- `pd.notna` is false exactly on missing and NaN cells. -/
def Cell.isNa : Cell → Bool
  | .absent => true
  | .nan => true
  | _ => false

/-- Python `str(...)` of a cell, with `row.get(key, '')` turning a missing
column into `''` and NaN printing as `"nan"`.  (Python's float repr is not
modelled exactly — no claim applies `str` to a float cell.) -/
def Cell.pyStr : Cell → List Char
  | .absent => []
  | .nan => "nan".data
  | .intv n => (toString n).data
  | .floatv q => (toString q).data
  | .strv s => s

/-- `row.get(key, default)` when the cell may be a missing column. -/
def cellGetD (c d : Cell) : Cell :=
  match c with
  | .absent => d
  | c => c

/-- Decimal value of a digit list. -/
def digitsVal (ds : List Char) : Nat :=
  ds.foldl (fun a c => a * 10 + (c.toNat - 48)) 0

/-- Non-empty, all decimal digits. -/
def isDigitList (ds : List Char) : Bool :=
  !ds.isEmpty && ds.all Char.isDigit

/-- Python `int(s)` on a string: optional surrounding whitespace, optional
sign, then decimal digits; anything else raises `ValueError` (`none` here).
Underscore separators and non-decimal bases are not modelled; no claim uses
them. -/
def parsePyInt (s : List Char) : Option Int :=
  match stripWs s with
  | [] => none
  | c :: rest =>
    if c = '-' then
      if isDigitList rest then some (-(digitsVal rest : Int)) else none
    else if c = '+' then
      if isDigitList rest then some ((digitsVal rest : Int)) else none
    else
      if isDigitList (c :: rest) then some ((digitsVal (c :: rest) : Int)) else none

/-- Decimal (unsigned) part of Python `float(s)`: digits with an optional
decimal point, at least one digit overall. -/
def parseUnsignedFloat (u : List Char) : Option Rat :=
  match u.splitOn '.' with
  | [a] => if isDigitList a then some ((digitsVal a : Rat)) else none
  | [a, b] =>
    if a.all Char.isDigit && b.all Char.isDigit && (!a.isEmpty || !b.isEmpty) then
      some ((digitsVal a : Rat) + (digitsVal b : Rat) / ((10 : Rat) ^ b.length))
    else none
  | _ => none

/-- Python `float(s)`: optional surrounding whitespace and sign around a
decimal literal.  Exponent forms and the `inf` and `nan` strings are not
modelled; no claim uses them. -/
def parsePyFloat (s : List Char) : Option Rat :=
  match stripWs s with
  | [] => none
  | c :: rest =>
    if c = '-' then (parseUnsignedFloat rest).map (fun q => -q)
    else if c = '+' then parseUnsignedFloat rest
    else parseUnsignedFloat (c :: rest)

/-- `int(row.get(k, 0)) if pd.notna(row.get(k)) else 0` — the coercion used
for `human_readable_id`, `degree` and `rank`: missing and NaN cells give 0,
numbers convert (`int` of a float truncates toward zero), and a non-numeric
string raises (`Except.error`). -/
def intFieldOr0 : Cell → Except Unit Int
  | .absent => .ok 0
  | .nan => .ok 0
  | .intv n => .ok n
  | .floatv q => .ok (q.num.tdiv (q.den : Int))
  | .strv s =>
    match parsePyInt s with
    | some n => .ok n
    | none => .error ()

/-- `float(row.get('weight', 1.0)) if pd.notna(row.get('weight')) else 1.0`:
missing and NaN cells give 1.0, numbers convert, and a non-numeric string
raises. -/
def floatFieldOr1 : Cell → Except Unit Rat
  | .absent => .ok 1
  | .nan => .ok 1
  | .intv n => .ok (n : Rat)
  | .floatv q => .ok q
  | .strv s =>
    match parsePyFloat s with
    | some q => .ok q
    | none => .error ()

/-- `str(row.get(k, ''))[:limit] if pd.notna(row.get(k)) else ''` — the
description fields (limit 1000 for entities, 500 for relationships). -/
def descField (limit : Nat) (c : Cell) : List Char :=
  if c.isNa then [] else c.pyStr.take limit

/-! ### Entity loading (`create_entities`) -/

/-- One row of the entities table, restricted to the columns
`create_entities` reads. -/
structure EntityRow where
  id : Cell
  title : Cell
  name : Cell
  typ : Cell
  description : Cell
  human_readable_id : Cell
  degree : Cell
deriving DecidableEq

/-- The `entity_data` dict built for one row (source lines 251-258). -/
structure EntityData where
  id : List Char
  name : List Char
  typ : List Char
  description : List Char
  human_readable_id : Int
  degree : Int
deriving DecidableEq

/-- Row preparation in `create_entities` (source lines 248-258), returning
the resolved label together with the `entity_data` dict.  This code runs
outside the batch's try/except, so an error here (a non-numeric
`human_readable_id` or `degree`) aborts the whole loader. -/
def prepEntityRow (m : Mapping) (r : EntityRow) : Except Unit (List Char × EntityData) := do
  let entity_type := if r.typ.isNa then [] else cleanType r.typ.pyStr
  let label := get_entity_label m entity_type
  let hri ← intFieldOr0 r.human_readable_id
  let deg ← intFieldOr0 r.degree
  .ok (label,
    { id := r.id.pyStr
      name := cleanType (cellGetD r.title r.name).pyStr
      typ := entity_type
      description := descField 1000 r.description
      human_readable_id := hri
      degree := deg })

/-- Accumulate one row into the `entities_by_label` dict: append to an
existing label's list, or add a new label group at the end. -/
def addToGroups (gs : List (List Char × List EntityData)) (l : List Char) (e : EntityData) :
    List (List Char × List EntityData) :=
  if l ∈ gs.map Prod.fst then
    gs.map (fun g => if g.1 = l then (g.1, g.2 ++ [e]) else g)
  else gs ++ [(l, [e])]

/-- `entities_by_label` for one batch, grouped in row order with labels in
first-occurrence order (Python dict insertion order). -/
def groupByLabel (xs : List (List Char × EntityData)) : List (List Char × List EntityData) :=
  xs.foldl (fun gs x => addToGroups gs x.1 x.2) []

/-- The per-label insert loop inside one batch's try-block: groups are
attempted in order; the first failing `session.run` raises, so the remaining
groups of the batch are not attempted and the locally accumulated
`batch_created` is never added to `created_count`.  Returns (rows committed
by the successful runs, whether an exception occurred, labels attempted). -/
def runBatchGroups (fails : List Char → Bool) :
    List (List Char × List EntityData) → Nat × Bool × List (List Char)
  | [] => (0, false, [])
  | (l, es) :: rest =>
    if fails l then (0, true, [l])
    else
      let r := runBatchGroups fails rest
      (es.length + r.1, r.2.1, l :: r.2.2)

/-- Outcome of the entity-loading phase. -/
structure EntLoadResult where
  created_count : Nat
  committed : Nat
  failedBatches : List Nat
  attempted : List (Nat × List Char)
deriving DecidableEq

/-- Fuel-bounded chunking; the fuel is always instantiated with the list's
length, which suffices for any positive chunk size. -/
def chunksAux {α : Type} (n : Nat) : Nat → List α → List (List α)
  | 0, _ => []
  | _, [] => []
  | fuel + 1, l => l.take n :: chunksAux n fuel (l.drop n)

/-- `range(0, total, batch_size)` slicing: split a list into consecutive
chunks of `n` elements (last one possibly shorter).  (Python raises on a
zero step; the claims only use positive batch sizes.) -/
def chunks {α : Type} (n : Nat) (l : List α) : List (List α) :=
  chunksAux n l.length l

/-- The batch loop of `create_entities` with 1-based batch numbers (the
source logs `i//batch_size + 1`); `fails b l` tells whether the grouped
insert for label `l` in batch `b` raises.  Row preparation runs outside the
try/except, so its errors propagate; a failing insert is caught, logged with
the batch number only, and the loop moves to the next batch. -/
def entityBatches (m : Mapping) (fails : Nat → List Char → Bool) :
    Nat → List (List EntityRow) → Except Unit EntLoadResult
  | _, [] => .ok ⟨0, 0, [], []⟩
  | bno, b :: bs =>
    match b.mapM (prepEntityRow m) with
    | .error e => .error e
    | .ok prepped =>
      match entityBatches m fails (bno + 1) bs with
      | .error e => .error e
      | .ok rest =>
        let r := runBatchGroups (fails bno) (groupByLabel prepped)
        .ok ⟨(if r.2.1 = true then 0 else r.1) + rest.created_count,
             r.1 + rest.committed,
             (if r.2.1 = true then [bno] else []) ++ rest.failedBatches,
             r.2.2.map (fun l => (bno, l)) ++ rest.attempted⟩

/-- `TCMNeo4jBuilder.create_entities` (final statistics display elided). -/
def create_entities (m : Mapping) (fails : Nat → List Char → Bool)
    (batch_size : Nat) (rows : List EntityRow) : Except Unit EntLoadResult :=
  entityBatches m fails 1 (chunks batch_size rows)

/-- The successfully prepared rows of one batch (equals the prepared list
whenever every row preparation succeeds). -/
def preppedRows (m : Mapping) (b : List EntityRow) : List (List Char × EntityData) :=
  b.filterMap (fun r => (prepEntityRow m r).toOption)

/-- Whether some label group of a batch has a failing insert. -/
def batchFails (fails1 : List Char → Bool) (gs : List (List Char × List EntityData)) : Bool :=
  gs.any (fun g => fails1 g.1)

/-- Total number of rows across a batch's label groups. -/
def groupsRowCount (gs : List (List Char × List EntityData)) : Nat :=
  (gs.map (fun g => g.2.length)).sum

/-- The labels whose grouped inserts a batch actually attempts: every group
before the first failing one, plus the failing one itself. -/
def attemptedLabels (fails1 : List Char → Bool)
    (gs : List (List Char × List EntityData)) : List (List Char) :=
  (gs.takeWhile (fun g => !fails1 g.1)).map Prod.fst ++
    (match gs.dropWhile (fun g => !fails1 g.1) with
     | [] => []
     | g :: _ => [g.1])

/-- Whether an `Except` computation completed without an exception. -/
def exceptOk {ε α : Type} : Except ε α → Bool
  | .ok _ => true
  | .error _ => false

/-! ### Relationship loading (`create_relationships`) -/

/-- One row of the relationships table, restricted to the columns
`create_relationships` reads. -/
structure RelRow where
  source : Cell
  target : Cell
  id : Cell
  description : Cell
  weight : Cell
  rank : Cell
deriving DecidableEq

/-- The `relationship_data` dict built for one row (source lines 336-343). -/
structure RelData where
  source_name : List Char
  target_name : List Char
  id : List Char
  description : List Char
  weight : Rat
  rank : Int
deriving DecidableEq

/-- Row preparation in `create_relationships` (source lines 336-343); also
outside the try/except, so a non-numeric `weight` or `rank` aborts the
loader. -/
def prepRelRow (r : RelRow) : Except Unit RelData := do
  let w ← floatFieldOr1 r.weight
  let k ← intFieldOr0 r.rank
  .ok { source_name := cleanType r.source.pyStr
        target_name := cleanType r.target.pyStr
        id := r.id.pyStr
        description := descField 500 r.description
        weight := w
        rank := k }

/-- A node already present in the store, identified by a store-side id and
carrying its `name` property. -/
structure StoreNode where
  nid : Nat
  name : List Char
deriving DecidableEq

/-- Cypher `MATCH (x {name: $n})` with no label scope: every store node
whose `name` property equals `n`. -/
def matchByName (store : List StoreNode) (n : List Char) : List StoreNode :=
  store.filter (fun x => x.name == n)

/-- The `RELATED_TO` edges one UNWIND row creates:
`MATCH (source {name}) MATCH (target {name}) CREATE ...` produces one edge
per (source match, target match) pair — zero edges when either name matches
nothing, several when a name is ambiguous. -/
def rowRels (store : List StoreNode) (r : RelData) : List (Nat × Nat) :=
  (matchByName store r.source_name).flatMap (fun s =>
    (matchByName store r.target_name).map (fun t => (s.nid, t.nid)))

/-- Outcome of the relationship-loading phase: the count the loader reports,
and the edges actually created in the store. -/
structure RelLoadResult where
  created_count : Nat
  rels : List (Nat × Nat)
deriving DecidableEq

/-- The batch loop of `create_relationships`: rows are prepared outside the
try (coercion errors propagate), then a single statement creates every
matching pair and `created_count` grows by the full batch length.  A MATCH
that finds no node is not a store error, so the per-batch try/except is
modelled as always succeeding. -/
def relBatches (store : List StoreNode) : List (List RelRow) → Except Unit RelLoadResult
  | [] => .ok ⟨0, []⟩
  | b :: bs =>
    match b.mapM prepRelRow with
    | .error e => .error e
    | .ok prepped =>
      match relBatches store bs with
      | .error e => .error e
      | .ok rest =>
        .ok ⟨b.length + rest.created_count,
             (prepped.map (rowRels store)).flatten ++ rest.rels⟩

/-- `TCMNeo4jBuilder.create_relationships`. -/
def create_relationships (store : List StoreNode) (batch_size : Nat)
    (rows : List RelRow) : Except Unit RelLoadResult :=
  relBatches store (chunks batch_size rows)

instance {ε α : Type} [DecidableEq ε] [DecidableEq α] : DecidableEq (Except ε α) :=
  fun a b =>
    match a, b with
    | .ok x, .ok y =>
      if h : x = y then .isTrue (by rw [h]) else .isFalse (by intro hc; cases hc; exact h rfl)
    | .error x, .error y =>
      if h : x = y then .isTrue (by rw [h]) else .isFalse (by intro hc; cases hc; exact h rfl)
    | .ok _, .error _ => .isFalse (by intro hc; cases hc)
    | .error _, .ok _ => .isFalse (by intro hc; cases hc)

/-! ## Helper lemmas -/

theorem dropWhile_eq_self_of_front {p : Char → Bool} {m r : List Char}
    (hm : List.dropWhile p m = m) (hr : r <+: m) : List.dropWhile p r = r := by
  cases r with
  | nil => simp
  | cons a r' =>
    obtain ⟨t, ht⟩ := hr
    subst ht
    rw [List.cons_append, List.dropWhile_cons] at hm
    rw [List.dropWhile_cons]
    by_cases hpa : p a = true
    · rw [if_pos hpa] at hm
      have hle := (List.dropWhile_sublist (l := r' ++ t) p).length_le
      rw [hm] at hle
      simp at hle
    · rw [if_neg hpa]

theorem stripChars_idem (p : Char → Bool) (l : List Char) :
    stripChars p (stripChars p l) = stripChars p l := by
  unfold stripChars
  have h1 : List.dropWhile p (List.dropWhile p l) = List.dropWhile p l :=
    List.dropWhile_idempotent p l
  have h2 : List.dropWhile p (List.rdropWhile p (List.dropWhile p l))
      = List.rdropWhile p (List.dropWhile p l) :=
    dropWhile_eq_self_of_front h1 ( List.rdropWhile_prefix p _)
  rw [h2, List.rdropWhile_idempotent]

theorem mem_mapInsert {m : Mapping} {k v k' v' : List Char}
    (h : (k', v') ∈ mapInsert m k v) : (k', v') ∈ m ∨ (k' = k ∧ v' = v) := by
  unfold mapInsert at h
  by_cases hc : k ∈ m.map Prod.fst
  · rw [if_pos hc] at h
    obtain ⟨q, hq, hqe⟩ := List.mem_map.1 h
    by_cases hk : q.1 = k
    · rw [if_pos hk] at hqe
      right
      cases hqe
      exact ⟨rfl, rfl⟩
    · rw [if_neg hk] at hqe
      left
      rw [← hqe]
      exact hq
  · rw [if_neg hc] at h
    rcases List.mem_append.1 h with h1 | h1
    · left; exact h1
    · right
      simp only [List.mem_singleton, Prod.mk.injEq] at h1
      exact h1

theorem generateNeo4jLabel_nil : generateNeo4jLabel [] = unknownLabel := by decide

theorem mem_typeMappingStep {m : Mapping} {t : RawType} {k v : List Char}
    (hm : ∀ k' v', (k', v') ∈ m → v' = generateNeo4jLabel k')
    (h : (k, v) ∈ typeMappingStep m t) : v = generateNeo4jLabel k := by
  unfold typeMappingStep at h
  split at h
  · rcases mem_mapInsert h with h2 | ⟨hk, hv⟩
    · exact hm _ _ h2
    · subst hk hv
      exact generateNeo4jLabel_nil.symm
  · simp only [ne_eq] at h
    split at h
    · rcases mem_mapInsert h with h2 | ⟨hk, hv⟩
      · exact hm _ _ h2
      · subst hk hv
        rfl
    · exact hm _ _ h

theorem mem_generate_aux (ts : List RawType) :
    ∀ m : Mapping, (∀ k v, (k, v) ∈ m → v = generateNeo4jLabel k) →
      ∀ k v, (k, v) ∈ ts.foldl typeMappingStep m → v = generateNeo4jLabel k := by
  induction ts with
  | nil => exact fun m hm k v h => hm k v h
  | cons t ts ih =>
    intro m hm k v h
    rw [List.foldl_cons] at h
    exact ih _ (fun k' v' h' => mem_typeMappingStep hm h') k v h

/-- Every entry of a generated mapping carries the sanitized label of its
key (the empty key's `"Unknown"` value agreeing with the sanitizer's
fallback on the empty string). -/
theorem mem_generate {p : Mapping} {ts : List RawType} {k v : List Char}
    (h : (k, v) ∈ generate_type_mappings p ts) : v = generateNeo4jLabel k :=
  mem_generate_aux ts (clearMapping p) (by intro k' v' h'; cases h') k v h

/-! ## Claims -/

/-- C10: label sanitization is idempotent — applying `_generate_neo4j_label`
to its own output returns that output unchanged (a sanitized label contains
none of the removed characters, and the fallback `"Unknown"` is itself a
fixed point). -/
theorem c10_generateNeo4jLabel_idempotent (s : List Char) :
    generateNeo4jLabel (generateNeo4jLabel s) = generateNeo4jLabel s := by
  have hfilter : ∀ l : List Char,
      (l.filter (fun c => !removedChar c)).filter (fun c => !removedChar c)
        = l.filter (fun c => !removedChar c) := by
    intro l
    rw [List.filter_filter]
    congr 1
    funext a
    cases removedChar a <;> rfl
  by_cases h : s.filter (fun c => !removedChar c) = []
  · have h1 : generateNeo4jLabel s = unknownLabel := by
      simp [generateNeo4jLabel, h]
    rw [h1]
    decide
  · have h1 : generateNeo4jLabel s = s.filter (fun c => !removedChar c) := by
      simp [generateNeo4jLabel, h]
    rw [h1]
    simp [generateNeo4jLabel, hfilter s, h]

/-- C9: the mapping produced by `generate_type_mappings` is a function of
the observed type sequence alone — the method clears all previously stored
mappings first, so any two prior mapping states yield identical results. -/
theorem c9_generate_type_mappings_ignores_prior (p₁ p₂ : Mapping) (ts : List RawType) :
    generate_type_mappings p₁ ts = generate_type_mappings p₂ ts := rfl

/-- C2 counterexample: the two distinct non-empty type keys `"a("` and
`"a)"` sanitize to the same candidate `"a"`, and `generate_type_mappings`
assigns BOTH the very same label `"a"` — no numeric disambiguating suffix is
ever appended, so the claimed distinct LabelIds do not exist. -/
theorem c2_collision_counterexample :
    generate_type_mappings [] [RawType.val "a(".data, RawType.val "a)".data]
      = [("a(".data, "a".data), ("a)".data, "a".data)] ∧
    "a(".data ≠ "a)".data ∧
    mapLookup (generate_type_mappings [] [RawType.val "a(".data, RawType.val "a)".data])
        "a(".data
      = mapLookup (generate_type_mappings [] [RawType.val "a(".data, RawType.val "a)".data])
        "a)".data := by
  refine ⟨by decide, by decide, by decide⟩

/-- C2 amended: when two (distinct, possibly non-empty) type keys sanitize
to the same candidate, `generate_type_mappings` assigns them the SAME label
(the types are merged under one label; both keys remain present in the
mapping, but no disambiguating suffix is appended and the labels are not
distinct). -/
theorem c2_amended_collision_same_label (p : Mapping) (ts : List RawType)
    (k₁ v₁ k₂ v₂ : List Char)
    (h₁ : (k₁, v₁) ∈ generate_type_mappings p ts)
    (h₂ : (k₂, v₂) ∈ generate_type_mappings p ts)
    (hcol : k₁.filter (fun c => !removedChar c) = k₂.filter (fun c => !removedChar c)) :
    v₁ = v₂ := by
  rw [mem_generate h₁, mem_generate h₂]
  simp only [generateNeo4jLabel, hcol]

/-- C2 amended, witnessed at the colliding keys `"a("` and `"a)"`. -/
theorem c2_amended_witness : ("a".data : List Char) = "a".data :=
  c2_amended_collision_same_label [] [RawType.val "a(".data, RawType.val "a)".data]
    "a(".data "a".data "a)".data "a".data (by decide) (by decide) (by decide)

/-- C3 counterexample: the non-empty type key `"()"` (every character
removed by sanitization) is mapped to `"Unknown"` — exactly the reserved
label of the empty key — so the empty-key label IS merged with a non-empty
key, and the fallback is not a distinct generic-entity label. -/
theorem c3_counterexample :
    generate_type_mappings [] [RawType.na, RawType.val "()".data]
      = [([], unknownLabel), ("()".data, unknownLabel)] ∧
    "()".data ≠ ([] : List Char) ∧
    generateNeo4jLabel "()".data = unknownLabel := by
  refine ⟨by decide, by decide, by decide⟩

/-- C3 amended: the empty type key always maps to the reserved `"Unknown"`
label, but a non-empty key whose sanitization removes every character falls
back to that SAME `"Unknown"` label (not to a distinct generic-entity
label; the distinct label `"Entity"` is only the lookup-miss default of
`get_entity_label`). -/
theorem c3_amended_unknown_fallback (p : Mapping) (ts : List RawType)
    (v : List Char) (hv : (([] : List Char), v) ∈ generate_type_mappings p ts) :
    v = unknownLabel ∧
    ∀ cs : List Char, cs.filter (fun c => !removedChar c) = [] →
      generateNeo4jLabel cs = unknownLabel := by
  constructor
  · rw [mem_generate hv]
    decide
  · intro cs hcs
    simp [generateNeo4jLabel, hcs]

/-- C3 amended, witnessed at the observed types `[na, "()"]`. -/
theorem c3_amended_witness :
    unknownLabel = unknownLabel ∧ generateNeo4jLabel "()".data = unknownLabel := by
  have h := c3_amended_unknown_fallback [] [RawType.na, RawType.val "()".data]
    unknownLabel (by decide)
  exact ⟨h.1, h.2 "()".data (by decide)⟩

/-- C4 counterexample: on the input `'" a "'` the source's normalization
(`str.strip().strip('"')`) yields `' a '` — the quote strip is NOT followed
by another whitespace strip — while the claimed strip/unquote/strip rule
(`specNormalize`) yields `'a'`; the two disagree. -/
theorem c4_counterexample :
    cleanType (quoteChar :: ' ' :: 'a' :: ' ' :: quoteChar :: [])
        = (' ' :: 'a' :: ' ' :: []) ∧
    specNormalize (quoteChar :: ' ' :: 'a' :: ' ' :: quoteChar :: [])
        = ('a' :: []) ∧
    cleanType (quoteChar :: ' ' :: 'a' :: ' ' :: quoteChar :: [])
        ≠ specNormalize (quoteChar :: ' ' :: 'a' :: ' ' :: quoteChar :: []) := by
  refine ⟨by decide, by decide, by decide⟩

/-- C4 amended: normalization strips whitespace and then strips ALL
surrounding quote characters, with no further whitespace strip (the result
is a fixed point of quote-stripping but may retain inner surrounding
whitespace, as the counterexample shows); an absent/NaN value, or one that
is whitespace-blank BEFORE quote-stripping, maps to the reserved empty
TypeKey `'' ↦ "Unknown"`; the function is the total Lean function
`cleanType`, raising nothing. -/
theorem c4_amended_normalization (cs : List Char) (p : Mapping) :
    stripQuote (cleanType cs) = cleanType cs ∧
    (stripWs cs = [] →
      generate_type_mappings p [RawType.val cs] = [([], unknownLabel)]) ∧
    generate_type_mappings p [RawType.na] = [([], unknownLabel)] := by
  refine ⟨?_, ?_, ?_⟩
  · simp only [cleanType, stripQuote]
    exact stripChars_idem _ _
  · intro h
    simp [generate_type_mappings, clearMapping, typeMappingStep, RawType.isNa,
      RawType.strOf, h, mapInsert]
  · simp [generate_type_mappings, clearMapping, typeMappingStep, RawType.isNa,
      mapInsert]

/-- C4 amended, witnessed at the blank input `"  "`. -/
theorem c4_amended_witness :
    stripQuote (cleanType "  ".data) = cleanType "  ".data ∧
    generate_type_mappings [] [RawType.val "  ".data] = [([], unknownLabel)] ∧
    generate_type_mappings [] [RawType.na] = [([], unknownLabel)] := by
  have h := c4_amended_normalization "  ".data []
  exact ⟨h.1, h.2.1 (by decide), h.2.2⟩

theorem runSchemaStmts_spec (fails : SchemaStmt → Bool) (l : List SchemaStmt) :
    (runSchemaStmts fails l).map Prod.fst = l ∧
    ∀ q ∈ runSchemaStmts fails l, q.2 = !fails q.1 := by
  induction l with
  | nil => exact ⟨rfl, by intro q hq; cases hq⟩
  | cons s rest ih =>
    refine ⟨by simp [runSchemaStmts, ih.1], ?_⟩
    intro q hq
    rcases List.mem_cons.1 hq with h | h
    · subst h; rfl
    · exact ih.2 q h

/-- C8: during schema creation, each statement of the constraint/index list
runs in its own try/except, so a failure of one label's statement does not
abort schema creation — every statement of the list (for every label) is
still attempted, in order, and each statement's outcome depends only on its
own failure. -/
theorem c8_schema_failures_do_not_abort (fails : SchemaStmt → Bool) (m : Mapping) :
    (runSchemaStmts fails (create_constraints_and_indexes m)).map Prod.fst
      = create_constraints_and_indexes m ∧
    ∀ q ∈ runSchemaStmts fails (create_constraints_and_indexes m), q.2 = !fails q.1 :=
  runSchemaStmts_spec fails (create_constraints_and_indexes m)

/-- C8 witnessed with a failing uniqueness constraint for `"Entity"`: the
relationship-rank index, which comes after the failure, is still attempted
and succeeds. -/
theorem c8_schema_witness :
    (runSchemaStmts (fun s => decide (s = SchemaStmt.uniqueId entityLabel))
        (create_constraints_and_indexes [])).map Prod.fst
      = create_constraints_and_indexes [] ∧
    (SchemaStmt.relRankIndex, true).2
      = !(fun s => decide (s = SchemaStmt.uniqueId entityLabel)) SchemaStmt.relRankIndex := by
  have h := c8_schema_failures_do_not_abort
    (fun s => decide (s = SchemaStmt.uniqueId entityLabel)) []
  exact ⟨h.1, h.2 (SchemaStmt.relRankIndex, true) (by decide)⟩

theorem chainPhaseAux (L : List Event) (hL : ∀ e ∈ L, phaseIndex e = 2) :
    List.Chain' (fun a b => phaseIndex a ≤ phaseIndex b)
        (L ++ [Event.relInsert, Event.stats]) ∧
    ∀ h_ ∈ (L ++ [Event.relInsert, Event.stats]).head?, 2 ≤ phaseIndex h_ := by
  induction L with
  | nil =>
    constructor
    · simp [List.chain'_cons, List.chain'_singleton, phaseIndex]
    · intro h_ hh
      simp only [List.nil_append, List.head?_cons, Option.mem_def,
        Option.some.injEq] at hh
      subst hh
      decide
  | cons e L ih =>
    obtain ⟨ihc, ihh⟩ := ih (fun x hx => hL x (List.mem_cons_of_mem _ hx))
    have he : phaseIndex e = 2 := hL e (List.mem_cons_self _ _)
    constructor
    · rw [List.cons_append, List.chain'_cons']
      exact ⟨fun y hy => by rw [he]; exact ihh y hy, ihc⟩
    · intro h_ hh
      rw [List.cons_append] at hh
      simp only [List.head?_cons, Option.mem_def, Option.some.injEq] at hh
      subst hh
      rw [he]

/-- C1 counterexample: on an input with one entity of type `"Drug"`, the
`main()` trace runs schema creation FIRST — on the fresh builder's empty
mapping, issuing statements for the label set `["Entity"]` only — and only
afterwards builds the type mapping; the entity is then inserted under label
`"Drug"`, which is not among the labels whose constraint/index statements
were issued before the first insert.  Both the claimed phase order
(normalization before schema) and the claimed consequence fail. -/
theorem c1_counterexample :
    mainTrace [RawType.val "Drug".data]
      = [Event.schema [entityLabel], Event.mapping, Event.entityInsert "Drug".data,
         Event.relInsert, Event.stats] ∧
    "Drug".data ∉ [entityLabel] := by
  refine ⟨by decide, by decide⟩

/-- C1 amended: for every full run, the phases execute in the order schema
creation (issued for the current — initially empty — mapping, i.e. for the
label `"Entity"` alone), THEN type normalization and label-mapping
construction, then entity insertion, then relationship insertion, then
statistics; no phase is skipped, but only the `"Entity"` label is guaranteed
to have its constraint/index statements issued before the first entity
insert. -/
theorem c1_amended_phase_order (ts : List RawType) :
    (mainTrace ts).head? = some (Event.schema [entityLabel]) ∧
    List.Chain' (fun a b => phaseIndex a ≤ phaseIndex b) (mainTrace ts) ∧
    ∀ L, Event.schema L ∈ mainTrace ts → L = [entityLabel] := by
  have hshape : mainTrace ts
      = Event.schema [entityLabel] :: Event.mapping ::
          (ts.map (fun t => Event.entityInsert
              (rowEntityLabel (generate_type_mappings [] (pdUnique ts)) t))
            ++ [Event.relInsert, Event.stats]) := rfl
  obtain ⟨hc, hh⟩ := chainPhaseAux
    (ts.map fun t => Event.entityInsert
      (rowEntityLabel (generate_type_mappings [] (pdUnique ts)) t))
    (by intro e he; obtain ⟨a, _, rfl⟩ := List.mem_map.1 he; rfl)
  refine ⟨by rw [hshape]; rfl, ?_, ?_⟩
  · rw [hshape, List.chain'_cons]
    refine ⟨Nat.zero_le _, ?_⟩
    rw [List.chain'_cons']
    exact ⟨fun y hy => le_trans one_le_two (hh y hy), hc⟩
  · intro L hL
    rw [hshape] at hL
    simp only [List.mem_cons, List.mem_append, List.mem_map,
      List.mem_singleton] at hL
    rcases hL with h | h | h | h | h | h
    · simpa using h
    · cases h
    · obtain ⟨a, _, ha⟩ := h; cases ha
    · cases h
    · cases h
    · cases h

/-- C1 amended, witnessed on the single observed type `"Drug"`. -/
theorem c1_amended_witness :
    (mainTrace [RawType.val "Drug".data]).head? = some (Event.schema [entityLabel]) ∧
    ([entityLabel] : List (List Char)) = [entityLabel] := by
  have h := c1_amended_phase_order [RawType.val "Drug".data]
  exact ⟨h.1, h.2.2 [entityLabel] (by decide)⟩

theorem mapM_ok_filterMap {α β : Type} {f : α → Except Unit β} :
    ∀ {l : List α} {l' : List β}, l.mapM f = .ok l' →
      l.filterMap (fun a => (f a).toOption) = l' := by
  intro l
  induction l with
  | nil =>
    intro l' h
    rw [List.mapM_nil] at h
    cases h
    rfl
  | cons a l ih =>
    intro l' h
    rw [List.mapM_cons] at h
    rcases hfa : f a with e | b
    · rw [hfa] at h
      cases h
    · rw [hfa] at h
      rcases hml : l.mapM f with e | bs
      · rw [hml] at h
        cases h
      · rw [hml] at h
        cases h
        have ht : (Except.ok b : Except Unit β).toOption = some b := rfl
        simp only [List.filterMap_cons, hfa, ht]
        rw [ih hml]

theorem intFieldOr0_default {c : Cell} (h : c = Cell.absent ∨ c = Cell.nan) :
    intFieldOr0 c = .ok 0 := by
  rcases h with h | h <;> subst h <;> rfl

theorem floatFieldOr1_default {c : Cell} (h : c = Cell.absent ∨ c = Cell.nan) :
    floatFieldOr1 c = .ok 1 := by
  rcases h with h | h <;> subst h <;> rfl

theorem runBatchGroups_spec (f1 : List Char → Bool)
    (gs : List (List Char × List EntityData)) :
    (runBatchGroups f1 gs).1
        = groupsRowCount (gs.takeWhile (fun g => !f1 g.1)) ∧
    (runBatchGroups f1 gs).2.1 = batchFails f1 gs ∧
    (runBatchGroups f1 gs).2.2 = attemptedLabels f1 gs := by
  induction gs with
  | nil => exact ⟨rfl, rfl, rfl⟩
  | cons g rest ih =>
    obtain ⟨l, es⟩ := g
    by_cases hf : f1 l = true
    · refine ⟨?_, ?_, ?_⟩ <;>
        simp [runBatchGroups, hf, batchFails, attemptedLabels, groupsRowCount,
          List.takeWhile_cons, List.dropWhile_cons]
    · refine ⟨?_, ?_, ?_⟩ <;>
        simp [runBatchGroups, hf, batchFails, attemptedLabels, groupsRowCount,
          List.takeWhile_cons, List.dropWhile_cons, ih.1, ih.2.1, ih.2.2]

theorem takeWhile_of_not_batchFails {f1 : List Char → Bool}
    {gs : List (List Char × List EntityData)} (h : batchFails f1 gs = false) :
    gs.takeWhile (fun g => !f1 g.1) = gs := by
  rw [List.takeWhile_eq_self_iff]
  intro x hx
  have hx' := (List.any_eq_false.1 h) x hx
  simpa using hx'

theorem entityBatches_spec (m : Mapping) (fails : Nat → List Char → Bool) :
    ∀ (bs : List (List EntityRow)) (bno : Nat) (res : EntLoadResult),
      entityBatches m fails bno bs = .ok res →
      res.created_count = ((bs.enumFrom bno).map (fun p =>
          if batchFails (fails p.1) (groupByLabel (preppedRows m p.2)) = true then 0
          else groupsRowCount (groupByLabel (preppedRows m p.2)))).sum ∧
      res.committed = ((bs.enumFrom bno).map (fun p =>
          groupsRowCount ((groupByLabel (preppedRows m p.2)).takeWhile
            (fun g => !fails p.1 g.1)))).sum ∧
      res.failedBatches = (((bs.enumFrom bno).filter (fun p =>
          batchFails (fails p.1) (groupByLabel (preppedRows m p.2)))).map Prod.fst) ∧
      res.attempted = ((bs.enumFrom bno).map (fun p =>
          (attemptedLabels (fails p.1) (groupByLabel (preppedRows m p.2))).map
            (fun l => (p.1, l)))).flatten := by
  intro bs
  induction bs with
  | nil =>
    intro bno res h
    cases h
    exact ⟨rfl, rfl, rfl, rfl⟩
  | cons b bs ih =>
    intro bno res h
    simp only [entityBatches] at h
    rcases hprep : b.mapM (prepEntityRow m) with e | prepped
    · rw [hprep] at h
      cases h
    · rw [hprep] at h
      rcases hrest : entityBatches m fails (bno + 1) bs with e | rest
      · rw [hrest] at h
        cases h
      · rw [hrest] at h
        cases h
        obtain ⟨ih1, ih2, ih3, ih4⟩ := ih (bno + 1) rest hrest
        have hpr : preppedRows m b = prepped := mapM_ok_filterMap hprep
        obtain ⟨r1, r2, r3⟩ := runBatchGroups_spec (fails bno) (groupByLabel prepped)
        rw [List.enumFrom_cons]
        refine ⟨?_, ?_, ?_, ?_⟩
        · rw [List.map_cons, List.sum_cons]
          simp only [hpr, r2]
          rw [← ih1]
          by_cases hb : batchFails (fails bno) (groupByLabel prepped) = true
          · rw [if_pos hb, if_pos hb]
          · have hb' : batchFails (fails bno) (groupByLabel prepped) = false := by
              revert hb
              cases batchFails (fails bno) (groupByLabel prepped) <;> simp
            rw [if_neg hb, if_neg hb, r1, takeWhile_of_not_batchFails hb']
        · rw [List.map_cons, List.sum_cons]
          simp only [hpr, r1]
          rw [← ih2]
        · rw [List.filter_cons]
          simp only [hpr, r2, ih3]
          by_cases hb : batchFails (fails bno) (groupByLabel prepped) = true
          · simp [hb]
          · simp [hb]
        · rw [List.map_cons, List.flatten_cons]
          simp only [hpr, r3]
          rw [← ih4]

theorem entityBatches_ok_congr (m : Mapping) :
    ∀ (bs : List (List EntityRow)) (bno : Nat) (f f' : Nat → List Char → Bool),
      exceptOk (entityBatches m f bno bs) = exceptOk (entityBatches m f' bno bs) := by
  intro bs
  induction bs with
  | nil => intro bno f f'; rfl
  | cons b bs ih =>
    intro bno f f'
    simp only [entityBatches]
    rcases hprep : b.mapM (prepEntityRow m) with e | prepped
    · rfl
    · have hih := ih (bno + 1) f f'
      rcases hrest : entityBatches m f (bno + 1) bs with e | rest <;>
        rcases hrest' : entityBatches m f' (bno + 1) bs with e' | rest'
      · rfl
      · rw [hrest, hrest'] at hih
        simp [exceptOk] at hih
      · rw [hrest, hrest'] at hih
        simp [exceptOk] at hih
      · rfl

theorem chunksAux_flatten {α : Type} (n : Nat) (hn : n ≠ 0) :
    ∀ (fuel : Nat) (l : List α), l.length ≤ fuel → (chunksAux n fuel l).flatten = l := by
  intro fuel
  induction fuel with
  | zero =>
    intro l hl
    have hnil : l = [] := List.length_eq_zero.mp (Nat.le_zero.mp hl)
    subst hnil
    rfl
  | succ fuel ih =>
    intro l hl
    cases l with
    | nil => rfl
    | cons a l' =>
      simp only [chunksAux, List.flatten_cons]
      have hlen : (List.drop n (a :: l')).length ≤ fuel := by
        simp only [List.length_drop, List.length_cons]
        simp only [List.length_cons] at hl
        omega
      rw [ih _ hlen, List.take_append_drop]

theorem chunks_flatten {α : Type} {n : Nat} (hn : n ≠ 0) (l : List α) :
    (chunks n l).flatten = l :=
  chunksAux_flatten n hn l.length l le_rfl

theorem map_const_sum {α : Type} (l : List α) (c : Nat) :
    (l.map (fun _ => c)).sum = l.length * c := by
  induction l with
  | nil => simp
  | cons a l ih =>
    simp only [List.map_cons, List.sum_cons, List.length_cons, ih]
    ring

theorem rowRels_length (store : List StoreNode) (rd : RelData) :
    (rowRels store rd).length
      = (matchByName store rd.source_name).length
          * (matchByName store rd.target_name).length := by
  unfold rowRels
  rw [List.length_flatMap]
  have hmap : List.map (List.length ∘ fun s : StoreNode =>
        (matchByName store rd.target_name).map (fun t => (s.nid, t.nid)))
        (matchByName store rd.source_name)
      = (matchByName store rd.source_name).map
          (fun _ => (matchByName store rd.target_name).length) := by
    apply List.map_congr_left
    intro x _
    simp [Function.comp]
  rw [hmap, map_const_sum]

theorem relBatches_spec (store : List StoreNode) :
    ∀ (bs : List (List RelRow)) (res : RelLoadResult), relBatches store bs = .ok res →
      res.created_count = bs.flatten.length ∧
      res.rels = ((bs.flatten.filterMap (fun r => (prepRelRow r).toOption)).map
          (rowRels store)).flatten := by
  intro bs
  induction bs with
  | nil =>
    intro res h
    cases h
    exact ⟨rfl, rfl⟩
  | cons b bs ih =>
    intro res h
    simp only [relBatches] at h
    rcases hprep : b.mapM prepRelRow with e | prepped
    · rw [hprep] at h
      cases h
    · rw [hprep] at h
      rcases hrest : relBatches store bs with e | rest
      · rw [hrest] at h
        cases h
      · rw [hrest] at h
        cases h
        obtain ⟨ih1, ih2⟩ := ih rest hrest
        have hpr : b.filterMap (fun r => (prepRelRow r).toOption) = prepped :=
          mapM_ok_filterMap hprep
        constructor
        · rw [List.flatten_cons, List.length_append, ih1]
        · rw [List.flatten_cons, List.filterMap_append, List.map_append,
            List.flatten_append, ih2, hpr]

/-- C5 counterexample: one batch whose rows form two label groups, `"Drug"`
then `"Herb"`, with the `"Drug"` grouped insert failing.  The exception is
caught at the batch level, so the `"Herb"` group in the same batch is never
attempted (only `(1, "Drug")` appears in the attempted list) and the batch
contributes nothing to `created_count` — the loader does NOT continue with
the next label group within the failed batch, and the failure record `[1]`
carries the batch number but no label group. -/
theorem c5_counterexample :
    create_entities
        (generate_type_mappings [] [RawType.val "Drug".data, RawType.val "Herb".data])
        (fun _ l => l == "Drug".data) 10
        [⟨Cell.strv "1".data, Cell.strv "n1".data, Cell.absent, Cell.strv "Drug".data,
          Cell.absent, Cell.absent, Cell.absent⟩,
         ⟨Cell.strv "2".data, Cell.strv "n2".data, Cell.absent, Cell.strv "Herb".data,
          Cell.absent, Cell.absent, Cell.absent⟩]
      = .ok ⟨0, 0, [1], [(1, "Drug".data)]⟩ ∧
    (1, "Herb".data) ∉ [(1, "Drug".data)] := by
  refine ⟨by decide, by decide⟩

/-- C5 amended: a failing grouped insert is caught at batch granularity and
logged with the batch number (not the label group); the loader always
continues with the NEXT BATCH (insert failures never abort the run), but
within the failed batch the label groups after the first failing one are
not attempted, and none of the failed batch's rows — not even those of
groups already committed before the failure — are added to
`created_count`. -/
theorem c5_amended_batch_failure_isolation (m : Mapping)
    (fails : Nat → List Char → Bool) (batch_size : Nat) (rows : List EntityRow)
    (res : EntLoadResult) (h : create_entities m fails batch_size rows = .ok res) :
    res.created_count = (((chunks batch_size rows).enumFrom 1).map (fun p =>
        if batchFails (fails p.1) (groupByLabel (preppedRows m p.2)) = true then 0
        else groupsRowCount (groupByLabel (preppedRows m p.2)))).sum ∧
    res.committed = (((chunks batch_size rows).enumFrom 1).map (fun p =>
        groupsRowCount ((groupByLabel (preppedRows m p.2)).takeWhile
          (fun g => !fails p.1 g.1)))).sum ∧
    res.failedBatches = ((((chunks batch_size rows).enumFrom 1).filter (fun p =>
        batchFails (fails p.1) (groupByLabel (preppedRows m p.2)))).map Prod.fst) ∧
    res.attempted = (((chunks batch_size rows).enumFrom 1).map (fun p =>
        (attemptedLabels (fails p.1) (groupByLabel (preppedRows m p.2))).map
          (fun l => (p.1, l)))).flatten ∧
    ∀ fails', exceptOk (create_entities m fails' batch_size rows) = true := by
  obtain ⟨h1, h2, h3, h4⟩ := entityBatches_spec m fails (chunks batch_size rows) 1 res h
  refine ⟨h1, h2, h3, h4, ?_⟩
  intro fails'
  have hok := entityBatches_ok_congr m (chunks batch_size rows) 1 fails fails'
  have hex : entityBatches m fails 1 (chunks batch_size rows) = .ok res := h
  unfold create_entities
  rw [← hok, hex]
  rfl

/-- C5 amended, witnessed on a run with a single successful batch. -/
theorem c5_amended_witness :
    exceptOk (create_entities
        (generate_type_mappings [] [RawType.val "Herb".data])
        (fun _ _ => true) 10
        [⟨Cell.strv "1".data, Cell.strv "n1".data, Cell.absent, Cell.strv "Herb".data,
          Cell.absent, Cell.absent, Cell.absent⟩]) = true := by
  have h := c5_amended_batch_failure_isolation
    (generate_type_mappings [] [RawType.val "Herb".data])
    (fun _ _ => false) 10
    [⟨Cell.strv "1".data, Cell.strv "n1".data, Cell.absent, Cell.strv "Herb".data,
      Cell.absent, Cell.absent, Cell.absent⟩]
    ⟨1, 1, [], [(1, "Herb".data)]⟩ (by decide)
  exact h.2.2.2.2 (fun _ _ => true)

/-- C6 counterexample: with two store nodes named `"A"` and one named
`"B"`, the row `("A", "B")` is NOT skipped: the unscoped MATCH pair creates
one `RELATED_TO` edge to EACH node named `"A"` (edges `(0,2)` and `(1,2)`),
and the row `("C", "B")` with zero source matches creates nothing yet is
still counted — `created_count = 2` counts both rows as created, and no
skipped/ambiguous outcome is recorded anywhere. -/
theorem c6_counterexample :
    create_relationships [⟨0, "A".data⟩, ⟨1, "A".data⟩, ⟨2, "B".data⟩] 10
        [⟨Cell.strv "A".data, Cell.strv "B".data, Cell.strv "r1".data, Cell.absent,
          Cell.absent, Cell.absent⟩,
         ⟨Cell.strv "C".data, Cell.strv "B".data, Cell.strv "r2".data, Cell.absent,
          Cell.absent, Cell.absent⟩]
      = .ok ⟨2, [(0, 2), (1, 2)]⟩ ∧
    ([(0, 2), (1, 2)] : List (Nat × Nat)) ≠ [] := by
  refine ⟨by decide, by decide⟩

/-- C6 amended: `created_count` counts every submitted row, including rows
whose source or target matches zero nodes (which create no edge) — there is
no skipped/ambiguous counter; and a row creates exactly one edge per
(source match, target match) pair, so an ambiguous name links the row to
EVERY matching node rather than being skipped. -/
theorem c6_amended_relationship_counting (store : List StoreNode) (n : Nat)
    (rows : List RelRow) (res : RelLoadResult) (hn : 0 < n)
    (h : create_relationships store n rows = .ok res) :
    res.created_count = rows.length ∧
    res.rels = ((rows.filterMap (fun r => (prepRelRow r).toOption)).map
        (rowRels store)).flatten ∧
    ∀ rd : RelData, (rowRels store rd).length
      = (matchByName store rd.source_name).length
          * (matchByName store rd.target_name).length := by
  obtain ⟨h1, h2⟩ := relBatches_spec store (chunks n rows) res h
  have hfl : (chunks n rows).flatten = rows :=
    chunks_flatten (by omega) rows
  exact ⟨by rw [h1, hfl], by rw [h2, hfl], fun rd => rowRels_length store rd⟩

/-- C6 amended, witnessed on a store with one node and one zero-match row. -/
theorem c6_amended_witness :
    (⟨1, ([] : List (Nat × Nat))⟩ : RelLoadResult).created_count
      = ([⟨Cell.strv "X".data, Cell.strv "A".data, Cell.strv "r".data, Cell.absent,
          Cell.absent, Cell.absent⟩] : List RelRow).length ∧
    (rowRels [⟨0, "A".data⟩] ⟨"X".data, "A".data, "r".data, [], 1, 0⟩).length
      = (matchByName [⟨0, "A".data⟩] "X".data).length
          * (matchByName [⟨0, "A".data⟩] "A".data).length := by
  have h := c6_amended_relationship_counting [⟨0, "A".data⟩] 10
    [⟨Cell.strv "X".data, Cell.strv "A".data, Cell.strv "r".data, Cell.absent,
      Cell.absent, Cell.absent⟩]
    ⟨1, []⟩ (by decide) (by decide)
  exact ⟨h.1, h.2.2 ⟨"X".data, "A".data, "r".data, [], 1, 0⟩⟩

/-- C7 counterexample: a non-numeric string in a numeric attribute is NOT
coerced to 0 — `int("abc")` raises, the exception occurs outside the
batch try/except, and the whole entity load aborts; likewise a non-numeric
relationship weight raises in `float(...)`. -/
theorem c7_counterexample :
    intFieldOr0 (Cell.strv "abc".data) = .error () ∧
    create_entities [] (fun _ _ => false) 10
        [⟨Cell.absent, Cell.absent, Cell.absent, Cell.absent, Cell.absent,
          Cell.strv "abc".data, Cell.absent⟩]
      = .error () ∧
    floatFieldOr1 (Cell.strv "x".data) = .error () := by
  refine ⟨by decide, by decide, by decide⟩

/-- C7 amended: the numeric attributes are coerced to their defaults
(`human_readable_id`/`degree`/`rank` to 0, `weight` to 1.0) when the cell is
absent or NaN, without an exception; but a non-numeric STRING value is not
coerced — `int(...)`/`float(...)` raise, and since row preparation runs
outside the try/except the load crashes on such a row. -/
theorem c7_amended_default_coercion (m : Mapping) (r : EntityRow) (rr : RelRow)
    (h1 : r.human_readable_id = Cell.absent ∨ r.human_readable_id = Cell.nan)
    (h2 : r.degree = Cell.absent ∨ r.degree = Cell.nan)
    (h3 : rr.weight = Cell.absent ∨ rr.weight = Cell.nan)
    (h4 : rr.rank = Cell.absent ∨ rr.rank = Cell.nan) :
    (∃ ld, prepEntityRow m r = .ok ld ∧ ld.2.human_readable_id = 0 ∧ ld.2.degree = 0) ∧
    (∃ rd, prepRelRow rr = .ok rd ∧ rd.weight = 1 ∧ rd.rank = 0) ∧
    (∀ s, parsePyInt s = none → intFieldOr0 (Cell.strv s) = .error ()) ∧
    (∀ s, parsePyFloat s = none → floatFieldOr1 (Cell.strv s) = .error ()) := by
  have e1 := intFieldOr0_default h1
  have e2 := intFieldOr0_default h2
  have e3 := floatFieldOr1_default h3
  have e4 := intFieldOr0_default h4
  have hpe : prepEntityRow m r
      = .ok (get_entity_label m (if r.typ.isNa = true then [] else cleanType r.typ.pyStr),
          { id := r.id.pyStr
            name := cleanType (cellGetD r.title r.name).pyStr
            typ := if r.typ.isNa = true then [] else cleanType r.typ.pyStr
            description := descField 1000 r.description
            human_readable_id := 0
            degree := 0 }) := by
    unfold prepEntityRow
    rw [e1, e2]
    rfl
  have hpr : prepRelRow rr
      = .ok { source_name := cleanType rr.source.pyStr
              target_name := cleanType rr.target.pyStr
              id := rr.id.pyStr
              description := descField 500 rr.description
              weight := 1
              rank := 0 } := by
    unfold prepRelRow
    rw [e3, e4]
    rfl
  refine ⟨⟨_, hpe, rfl, rfl⟩, ⟨_, hpr, rfl, rfl⟩, ?_, ?_⟩
  · intro s hs
    simp [intFieldOr0, hs]
  · intro s hs
    simp [floatFieldOr1, hs]

/-- C7 amended, witnessed on rows with absent and NaN numeric cells. -/
theorem c7_amended_witness :
    (∃ ld, prepEntityRow []
        (⟨Cell.absent, Cell.absent, Cell.absent, Cell.absent, Cell.absent,
          Cell.absent, Cell.nan⟩ : EntityRow) = .ok ld ∧
      ld.2.human_readable_id = 0 ∧ ld.2.degree = 0) ∧
    (∃ rd, prepRelRow
        (⟨Cell.absent, Cell.absent, Cell.absent, Cell.absent, Cell.nan,
          Cell.absent⟩ : RelRow) = .ok rd ∧ rd.weight = 1 ∧ rd.rank = 0) ∧
    intFieldOr0 (Cell.strv "abc".data) = .error () ∧
    floatFieldOr1 (Cell.strv "zz".data) = .error () := by
  have h := c7_amended_default_coercion []
    (⟨Cell.absent, Cell.absent, Cell.absent, Cell.absent, Cell.absent,
      Cell.absent, Cell.nan⟩ : EntityRow)
    (⟨Cell.absent, Cell.absent, Cell.absent, Cell.absent, Cell.nan,
      Cell.absent⟩ : RelRow)
    (Or.inl rfl) (Or.inr rfl) (Or.inr rfl) (Or.inl rfl)
  exact ⟨h.1, h.2.1, h.2.2.1 "abc".data (by decide), h.2.2.2 "zz".data (by decide)⟩

end BuildNeo4j
